import Mathlib

/- Shallow embedding of the chaos-core engine (TypeScript sources) and proofs
   about its specification claims.  JavaScript Maps and Sets are modelled as
   insertion-ordered association lists / lists without duplicates, matching the
   iteration order the source relies on.  Machine numbers in the modelled code
   are small integers (priorities, coordinates, nesting counters), modelled as
   Int / Nat. -/

namespace ChaosCore

/-- JS `Map.get`: first entry with the key, if any. -/
def mapGet {α β : Type} [DecidableEq α] : List (α × β) → α → Option β
  | [], _ => none
  | kv :: rest, k => if kv.1 = k then some kv.2 else mapGet rest k

/-- JS `Map.set`: replace in place when the key exists, append otherwise. -/
def mapSet {α β : Type} [DecidableEq α] : List (α × β) → α → β → List (α × β)
  | [], k, v => [(k, v)]
  | kv :: rest, k, v => if kv.1 = k then (k, v) :: rest else kv :: mapSet rest k v

/-- JS `Map.delete`: drop the entry with the key, keep the order of the rest. -/
def mapDelete {α β : Type} [DecidableEq α] : List (α × β) → α → List (α × β)
  | [], _ => []
  | kv :: rest, k => if kv.1 = k then rest else kv :: mapDelete rest k

/-- JS `Set.add`: append if absent. -/
def setAdd {α : Type} [DecidableEq α] (l : List α) (x : α) : List α :=
  if x ∈ l then l else l ++ [x]

/-! ## Permissions (src/src/Events/Action.ts)

`Action.permissions` is a `Map<number, Permission>`; the constructor seeds it
with a default allowance at priority 0. -/

/-- Permission (src/src/Events/Permission.ts, as used by Action.ts): a vote with
optional source references and message. -/
structure Permission where
  permitted : Bool
  byWho : Option String := none
  usingWhat : Option String := none
  message : Option String := none
deriving DecidableEq, Repr

abbrev PermMap := List (Int × Permission)

/-- The `permissions` map right after the Action constructor ran:
`this.permissions.set(0, new Permission(true))`. -/
def initialPermissions : PermMap := [(0, ⟨true, none, none, none⟩)]

/-- Action.addPermission (Action.ts lines 188-200): a fresh priority is
inserted; at an existing priority only an allow→deny override replaces the
stored entry. -/
def addPermission (m : PermMap) (permitted : Bool) (priority : Int)
    (byWho usingWhat message : Option String) : PermMap :=
  match mapGet m priority with
  | none => mapSet m priority ⟨permitted, byWho, usingWhat, message⟩
  | some previous =>
    if previous.permitted && !permitted then
      mapSet m priority ⟨permitted, byWho, usingWhat, message⟩
    else m

/-- The state `(highest, permitted, decidingPermission)` that
Action.decidePermission folds over the map entries. -/
structure PermDecision where
  highest : Int
  permitted : Bool
  deciding : Option Permission
deriving DecidableEq, Repr

/-- One iteration of the loop in Action.decidePermission (lines 202-212):
`if (key >= highest) ...`. -/
def decideStep (st : PermDecision) (kv : Int × Permission) : PermDecision :=
  if kv.1 ≥ st.highest then ⟨kv.1, kv.2.permitted, some kv.2⟩ else st

/-- Action.decidePermission (Action.ts lines 202-212).  `highest` starts at 0;
`permitted` starts at its field default `true` and `decidingPermission` unset. -/
def decidePermission (m : PermMap) : PermDecision :=
  m.foldl decideStep ⟨0, true, none⟩

/-- An `addPermission` call as recorded by `permit` / `deny` (lines 180-186). -/
structure PermOp where
  permitted : Bool
  priority : Int
  byWho : Option String := none
  usingWhat : Option String := none
  message : Option String := none
deriving DecidableEq, Repr

def applyPermOp (m : PermMap) (op : PermOp) : PermMap :=
  addPermission m op.permitted op.priority op.byWho op.usingWhat op.message

/-- The permissions map after a sequence of permit/deny calls on a fresh
action. -/
def applyPermOps (ops : List PermOp) : PermMap :=
  ops.foldl applyPermOp initialPermissions

def permKeys (m : PermMap) : List Int := m.map Prod.fst

/-- The largest priority key (at least 0, like the loop's running `highest`). -/
def maxKey (m : PermMap) : Int := (permKeys m).foldl max 0

/-- A permissions map reachable from the constructor state: its priority keys
are distinct and priority 0 is present. -/
def ReachedPerm (m : PermMap) : Prop :=
  (permKeys m).Nodup ∧ (0 : Int) ∈ permKeys m

theorem mapGet_eq_none_iff {α β : Type} [DecidableEq α] (m : List (α × β)) (k : α) :
    mapGet m k = none ↔ k ∉ m.map Prod.fst := by
  induction m with
  | nil => simp [mapGet]
  | cons kv rest ih =>
    by_cases h : kv.1 = k
    · simp [mapGet, h]
    · simp [mapGet, h, ih, Ne.symm h]

theorem keys_mapSet_of_mem {α β : Type} [DecidableEq α] (m : List (α × β)) (k : α) (v : β)
    (h : k ∈ m.map Prod.fst) : (mapSet m k v).map Prod.fst = m.map Prod.fst := by
  induction m with
  | nil => simp at h
  | cons kv rest ih =>
    by_cases hk : kv.1 = k
    · simp [mapSet, hk]
    · have : k ∈ rest.map Prod.fst := by
        simp at h
        rcases h with h | h
        · exact absurd h.symm hk
        · simpa using h
      simp [mapSet, hk, ih this]

theorem keys_mapSet_of_not_mem {α β : Type} [DecidableEq α] (m : List (α × β)) (k : α) (v : β)
    (h : k ∉ m.map Prod.fst) : (mapSet m k v).map Prod.fst = m.map Prod.fst ++ [k] := by
  induction m with
  | nil => simp [mapSet]
  | cons kv rest ih =>
    have hk : kv.1 ≠ k := by
      intro hkk
      exact h (by simp [hkk])
    have hrest : k ∉ rest.map Prod.fst := by
      intro hm
      exact h (by simp [hm])
    simp [mapSet, hk, ih hrest]

theorem mapGet_mapSet_self {α β : Type} [DecidableEq α] (m : List (α × β)) (k : α) (v : β) :
    mapGet (mapSet m k v) k = some v := by
  induction m with
  | nil => simp [mapSet, mapGet]
  | cons kv rest ih =>
    by_cases hk : kv.1 = k
    · simp [mapSet, hk, mapGet]
    · simp [mapSet, hk, mapGet, ih]

theorem le_foldl_max (l : List Int) (a : Int) : a ≤ l.foldl max a := by
  induction l generalizing a with
  | nil => simp
  | cons x rest ih => exact le_trans (le_max_left a x) (ih (max a x))

theorem mem_le_foldl_max (l : List Int) (a : Int) : ∀ x ∈ l, x ≤ l.foldl max a := by
  induction l generalizing a with
  | nil => simp
  | cons y rest ih =>
    intro x hx
    rcases List.mem_cons.mp hx with h | h
    · subst h
      exact le_trans (le_max_right a x) (le_foldl_max rest (max a x))
    · exact ih (max a y) x h

theorem foldl_max_mem (l : List Int) (a : Int) : l.foldl max a = a ∨ l.foldl max a ∈ l := by
  induction l generalizing a with
  | nil => simp
  | cons x rest ih =>
    rcases ih (max a x) with h | h
    · rcases max_choice a x with hm | hm
      · left
        simpa [hm] using h
      · right
        simp only [List.foldl_cons]
        rw [h, hm]
        exact List.mem_cons_self _ _
    · right
      exact List.mem_cons_of_mem _ h

theorem foldl_decideStep_skip (m : PermMap) (st : PermDecision)
    (h : ∀ kv ∈ m, kv.1 < st.highest) : m.foldl decideStep st = st := by
  induction m with
  | nil => rfl
  | cons kv rest ih =>
    have hk : ¬ kv.1 ≥ st.highest := not_le.mpr (h kv (List.mem_cons_self _ _))
    simp only [List.foldl_cons, decideStep, if_neg hk]
    exact ih fun x hx => h x (List.mem_cons_of_mem _ hx)

/-- The fold in decidePermission lands on the entry carrying the largest key,
provided keys are distinct and the running maximum starts no higher. -/
theorem foldl_decideStep_max (m : PermMap) (st : PermDecision) (K : Int) (v : Permission)
    (hmem : (K, v) ∈ m) (hub : ∀ kv ∈ m, kv.1 ≤ K) (hnd : (permKeys m).Nodup)
    (hst : st.highest ≤ K) : m.foldl decideStep st = ⟨K, v.permitted, some v⟩ := by
  induction m generalizing st with
  | nil => simp at hmem
  | cons kv rest ih =>
    have hnd' : (permKeys rest).Nodup := (List.nodup_cons.mp hnd).2
    have hhd : kv.1 ∉ permKeys rest := (List.nodup_cons.mp hnd).1
    rcases List.mem_cons.mp hmem with h | h
    · -- the max-key entry is the head
      have hk1 : kv.1 = K := by rw [← h]
      have hstep : decideStep st kv = ⟨K, v.permitted, some v⟩ := by
        have : kv.1 ≥ st.highest := hk1 ▸ hst
        rw [decideStep, if_pos this, ← h]
      rw [List.foldl_cons, hstep]
      refine foldl_decideStep_skip rest _ ?_
      intro x hx
      have hxle : x.1 ≤ K := hub x (List.mem_cons_of_mem _ hx)
      have hxne : x.1 ≠ K := by
        intro hxK
        exact hhd (hk1 ▸ hxK ▸ (List.mem_map_of_mem Prod.fst hx))
      exact lt_of_le_of_ne hxle hxne
    · -- the max-key entry is in the tail
      have hKrest : K ∈ permKeys rest := by
        simpa [permKeys] using List.mem_map_of_mem Prod.fst h
      have hkne : kv.1 ≠ K := fun hkk => hhd (hkk ▸ hKrest)
      have hklt : kv.1 < K := lt_of_le_of_ne (hub kv (List.mem_cons_self _ _)) hkne
      rw [List.foldl_cons]
      refine ih (decideStep st kv) h (fun x hx => hub x (List.mem_cons_of_mem _ hx)) hnd' ?_
      by_cases hc : kv.1 ≥ st.highest
      · simpa [decideStep, if_pos hc] using le_of_lt hklt
      · simpa [decideStep, if_neg hc] using hst

theorem reachedPerm_initial : ReachedPerm initialPermissions := by
  constructor <;> simp [initialPermissions, permKeys]

theorem reachedPerm_addPermission (m : PermMap) (hp : ReachedPerm m) (b : Bool) (p : Int)
    (w u msg : Option String) : ReachedPerm (addPermission m b p w u msg) := by
  rcases hp with ⟨hnd, h0⟩
  unfold addPermission
  cases hget : mapGet m p with
  | none =>
    have hnot : p ∉ permKeys m := (mapGet_eq_none_iff m p).mp hget
    constructor
    · rw [permKeys, keys_mapSet_of_not_mem m p _ hnot]
      refine List.Nodup.append hnd (List.nodup_singleton p) ?_
      intro a ha hap
      rw [List.mem_singleton.mp hap] at ha
      exact hnot ha
    · rw [permKeys, keys_mapSet_of_not_mem m p _ hnot]
      exact List.mem_append_left _ h0
  | some previous =>
    by_cases hc : previous.permitted && !b
    · have hmem : p ∈ permKeys m := by
        by_contra hnot
        rw [(mapGet_eq_none_iff m p).mpr hnot] at hget
        exact Option.noConfusion hget
      simp only [if_pos hc]
      constructor
      · rw [permKeys, keys_mapSet_of_mem m p _ hmem]
        exact hnd
      · rw [permKeys, keys_mapSet_of_mem m p _ hmem]
        exact h0
    · simp only [if_neg hc]
      exact ⟨hnd, h0⟩

theorem reachedPerm_applyPermOps (ops : List PermOp) : ReachedPerm (applyPermOps ops) := by
  suffices h : ∀ m, ReachedPerm m → ReachedPerm (ops.foldl applyPermOp m) by
    exact h initialPermissions reachedPerm_initial
  induction ops with
  | nil => exact fun m hm => hm
  | cons op rest ih =>
    intro m hm
    exact ih _ (reachedPerm_addPermission m hm op.permitted op.priority op.byWho op.usingWhat op.message)

/-- decidePermission on any reachable permissions map picks out the entry with
the largest priority key and copies its verdict. -/
theorem decidePermission_max (m : PermMap) (hp : ReachedPerm m) :
    ∃ v, (maxKey m, v) ∈ m ∧ decidePermission m = ⟨maxKey m, v.permitted, some v⟩ := by
  rcases hp with ⟨hnd, h0⟩
  have hKmem : maxKey m ∈ permKeys m := by
    rcases foldl_max_mem (permKeys m) 0 with h | h
    · rw [maxKey, h]
      exact h0
    · exact h
  rcases List.mem_map.mp hKmem with ⟨kv, hkv, hfst⟩
  refine ⟨kv.2, ?_, ?_⟩
  · rw [← hfst]
    exact hkv
  · have := foldl_decideStep_max m ⟨0, true, none⟩ (maxKey m) kv.2
      (by rw [← hfst]; exact hkv)
      (fun x hx => mem_le_foldl_max (permKeys m) 0 x.1 (List.mem_map_of_mem Prod.fst hx))
      hnd (le_foldl_max (permKeys m) 0)
    exact this

theorem addPermission_deny_overrides_allow (m : PermMap) (p : Int) (prev : Permission)
    (b u msg : Option String) (hget : mapGet m p = some prev) (hperm : prev.permitted = true) :
    mapGet (addPermission m false p b u msg) p = some ⟨false, b, u, msg⟩ := by
  simp [addPermission, hget, hperm, mapGet_mapSet_self]

theorem addPermission_keeps_deny (m : PermMap) (p : Int) (prev : Permission) (b : Bool)
    (w u msg : Option String) (hget : mapGet m p = some prev) (hperm : prev.permitted = false) :
    addPermission m b p w u msg = m := by
  simp [addPermission, hget, hperm]

theorem deny_high_beats_allow_low (n : Int) (hn : 1 ≤ n) :
    (decidePermission (applyPermOps
      [⟨true, n - 1, none, none, none⟩, ⟨false, n, none, none, none⟩])).permitted = false := by
  rcases eq_or_lt_of_le hn with h1 | h1
  · rw [← h1]
    decide
  · have h01 : ¬ ((0 : Int) = n - 1) := by omega
    have h0n : ¬ ((0 : Int) = n) := by omega
    have h1n : ¬ (n - 1 = n) := by omega
    have e1 : applyPermOp initialPermissions ⟨true, n - 1, none, none, none⟩ =
        [(0, ⟨true, none, none, none⟩), (n - 1, ⟨true, none, none, none⟩)] := by
      simp [applyPermOp, addPermission, mapGet, initialPermissions, mapSet, h01]
    have e2 : applyPermOp
        [((0 : Int), (⟨true, none, none, none⟩ : Permission)), (n - 1, ⟨true, none, none, none⟩)]
        ⟨false, n, none, none, none⟩ =
        [(0, ⟨true, none, none, none⟩), (n - 1, ⟨true, none, none, none⟩),
          (n, ⟨false, none, none, none⟩)] := by
      simp [applyPermOp, addPermission, mapGet, mapSet, h0n, h1n]
    have s1 : decideStep ⟨0, true, none⟩ ((0 : Int), (⟨true, none, none, none⟩ : Permission)) =
        ⟨0, true, some ⟨true, none, none, none⟩⟩ := by
      rw [decideStep, if_pos (by omega : (0 : Int) ≥ 0)]
    have s2 : decideStep ⟨0, true, some ⟨true, none, none, none⟩⟩
        (n - 1, (⟨true, none, none, none⟩ : Permission)) =
        ⟨n - 1, true, some ⟨true, none, none, none⟩⟩ := by
      rw [decideStep, if_pos (by omega : n - 1 ≥ (0 : Int))]
    have s3 : decideStep ⟨n - 1, true, some ⟨true, none, none, none⟩⟩
        (n, (⟨false, none, none, none⟩ : Permission)) =
        ⟨n, false, some ⟨false, none, none, none⟩⟩ := by
      rw [decideStep, if_pos (by omega : n ≥ n - 1)]
    rw [applyPermOps, List.foldl_cons, List.foldl_cons, List.foldl_nil, e1, e2,
      decidePermission, List.foldl_cons, List.foldl_cons, List.foldl_cons, List.foldl_nil,
      s1, s2, s3]

theorem allow_high_beats_deny_low (n : Int) (hn : 1 ≤ n) :
    (decidePermission (applyPermOps
      [⟨false, n - 1, none, none, none⟩, ⟨true, n, none, none, none⟩])).permitted = true := by
  rcases eq_or_lt_of_le hn with h1 | h1
  · rw [← h1]
    decide
  · have h01 : ¬ ((0 : Int) = n - 1) := by omega
    have h0n : ¬ ((0 : Int) = n) := by omega
    have h1n : ¬ (n - 1 = n) := by omega
    have e1 : applyPermOp initialPermissions ⟨false, n - 1, none, none, none⟩ =
        [(0, ⟨true, none, none, none⟩), (n - 1, ⟨false, none, none, none⟩)] := by
      simp [applyPermOp, addPermission, mapGet, initialPermissions, mapSet, h01]
    have e2 : applyPermOp
        [((0 : Int), (⟨true, none, none, none⟩ : Permission)), (n - 1, ⟨false, none, none, none⟩)]
        ⟨true, n, none, none, none⟩ =
        [(0, ⟨true, none, none, none⟩), (n - 1, ⟨false, none, none, none⟩),
          (n, ⟨true, none, none, none⟩)] := by
      simp [applyPermOp, addPermission, mapGet, mapSet, h0n, h1n]
    have s1 : decideStep ⟨0, true, none⟩ ((0 : Int), (⟨true, none, none, none⟩ : Permission)) =
        ⟨0, true, some ⟨true, none, none, none⟩⟩ := by
      rw [decideStep, if_pos (by omega : (0 : Int) ≥ 0)]
    have s2 : decideStep ⟨0, true, some ⟨true, none, none, none⟩⟩
        (n - 1, (⟨false, none, none, none⟩ : Permission)) =
        ⟨n - 1, false, some ⟨false, none, none, none⟩⟩ := by
      rw [decideStep, if_pos (by omega : n - 1 ≥ (0 : Int))]
    have s3 : decideStep ⟨n - 1, false, some ⟨false, none, none, none⟩⟩
        (n, (⟨true, none, none, none⟩ : Permission)) =
        ⟨n, true, some ⟨true, none, none, none⟩⟩ := by
      rw [decideStep, if_pos (by omega : n ≥ n - 1)]
    rw [applyPermOps, List.foldl_cons, List.foldl_cons, List.foldl_nil, e1, e2,
      decidePermission, List.foldl_cons, List.foldl_cons, List.foldl_cons, List.foldl_nil,
      s1, s2, s3]

/-- C2: for every sequence of permit/deny calls, decidePermission selects the
entry with the highest integer priority key (the default priority-0 allowance
is always present), copying `permitted` and `decidingPermission` from it;
within one priority a deny recorded after an allow replaces the allow while an
allow recorded after a deny leaves the deny in place; consequently a
priority-n deny beats a priority n-1 permit and a priority-n permit beats a
priority n-1 deny. -/
theorem claim_c2 (ops : List PermOp) :
    (∃ v, (maxKey (applyPermOps ops), v) ∈ applyPermOps ops ∧
      decidePermission (applyPermOps ops) =
        ⟨maxKey (applyPermOps ops), v.permitted, some v⟩) ∧
    (∀ p prev b u msg, mapGet (applyPermOps ops) p = some prev → prev.permitted = true →
      mapGet (addPermission (applyPermOps ops) false p b u msg) p = some ⟨false, b, u, msg⟩) ∧
    (∀ p prev w u msg, mapGet (applyPermOps ops) p = some prev → prev.permitted = false →
      addPermission (applyPermOps ops) true p w u msg = applyPermOps ops) ∧
    (∀ n : Int, 1 ≤ n → (decidePermission (applyPermOps
      [⟨true, n - 1, none, none, none⟩, ⟨false, n, none, none, none⟩])).permitted = false) ∧
    (∀ n : Int, 1 ≤ n → (decidePermission (applyPermOps
      [⟨false, n - 1, none, none, none⟩, ⟨true, n, none, none, none⟩])).permitted = true) := by
  refine ⟨decidePermission_max _ (reachedPerm_applyPermOps ops), ?_, ?_, ?_, ?_⟩
  · intro p prev b u msg hget hperm
    exact addPermission_deny_overrides_allow _ p prev b u msg hget hperm
  · intro p prev w u msg hget hperm
    exact addPermission_keeps_deny _ p prev true w u msg hget hperm
  · exact deny_high_beats_allow_low
  · exact allow_high_beats_deny_low

/-- Witness for C2 at concrete inputs: a priority-1 deny after a priority-0
permit yields a denial, and the empty call sequence decides via the default
allowance. -/
theorem claim_c2_witness :
    (decidePermission (applyPermOps
      [⟨true, 0, none, none, none⟩, ⟨false, 1, none, none, none⟩])).permitted = false ∧
    decidePermission (applyPermOps []) = ⟨0, true, some ⟨true, none, none, none⟩⟩ := by
  constructor
  · have h := (claim_c2 []).2.2.2.1 1 (by norm_num)
    have e : (1 : Int) - 1 = 0 := by norm_num
    rw [e] at h
    exact h
  · rcases (claim_c2 []).1 with ⟨v, hv, hd⟩
    have hm : maxKey (applyPermOps []) = 0 := by decide
    rw [hm] at hv hd
    have hv' : v = ⟨true, none, none, none⟩ := by
      simpa [applyPermOps, initialPermissions] using hv
    rw [hd, hv']

/-! ## The apply gate of Action.execute (Action.ts lines 102-121)

Line 103 reads
`if ((this.permitted && this.feasabilityCallback !== undefined ? this.feasabilityCallback(this) : true) || force)`.
In JavaScript the conditional operator binds looser than `&&`, so the tested
condition is `(permitted && callback !== undefined) ? callback(this) : true`,
then `|| force`.  The feasibility callback is modelled by the Boolean it would
return (`none` when the callback is undefined). -/

/-- The condition of line 103 exactly as it parses. -/
def applyGate (permitted : Bool) (feasibility : Option Bool) (force : Bool) : Bool :=
  (if permitted && feasibility.isSome then feasibility.getD true else true) || force

/-- The condition the spec states for the apply step:
`permitted && (feasibility_callback==null || feasibility_callback(self))` or
`force`. -/
def applyGateSpec (permitted : Bool) (feasibility : Option Bool) (force : Bool) : Bool :=
  (permitted && feasibility.getD true) || force

/-- A collected listener for the post-collection phases of execute: its id and
the permit/deny calls its `modify` issues, in order. -/
structure ModListener where
  id : String
  ops : List PermOp
deriving DecidableEq, Repr

/-- Outcome of the phases of Action.execute after listener collection. -/
structure ExecResult where
  permitted : Bool
  deciding : Option Permission
  applyInvoked : Bool
  reacted : List String
deriving DecidableEq, Repr

/-- Action.execute after collectListeners (Action.ts lines 85-120): every
listener's `modify` records its permissions in order (lines 94-96), then
decidePermission runs (line 99), then `apply()` exactly when the line-103
condition holds (lines 102-105), and finally `react` runs on every listener
unconditionally (lines 116-118). -/
def executeAfterCollect (listeners : List ModListener) (feasibility : Option Bool)
    (force : Bool) : ExecResult :=
  let d := decidePermission (applyPermOps (listeners.map (·.ops)).flatten)
  { permitted := d.permitted
    deciding := d.deciding
    applyInvoked := applyGate d.permitted feasibility force
    reacted := listeners.map (·.id) }

/-- The default argument of execute (Action.ts line 64: `force: boolean = true`). -/
def executeForceDefault : Bool := true

/-- C1: the claim fails on the code.  With `force = false`, no feasibility
callback and a listener whose modify denies at priority 1, permission
resolution yields `permitted = false`, yet the line-103 condition still
evaluates to `true` — the ternary's test `(permitted && callback !== undefined)`
is false, so the condition becomes `true || force` — and `apply()` is invoked;
`react` does reach the collected listener.  The spec's own condition would
skip `apply()` here. -/
theorem claim_c1 :
    (executeAfterCollect [⟨"L1", [⟨false, 1, none, none, some "denied"⟩]⟩] none false).permitted
        = false ∧
    (executeAfterCollect [⟨"L1", [⟨false, 1, none, none, some "denied"⟩]⟩] none false).applyInvoked
        = true ∧
    (executeAfterCollect [⟨"L1", [⟨false, 1, none, none, some "denied"⟩]⟩] none false).reacted
        = ["L1"] ∧
    applyGateSpec false none false = false := by
  decide

/-- C10: execute's `force` parameter defaults to `true`; with `force = true`
the line-103 condition is `... || true`, so the variant's `apply()` is invoked
no matter what permissions the listeners recorded (in particular when every
recorded permission is a denial), and a denial can only suppress `apply()` in
a call that passes `force = false` explicitly. -/
theorem claim_c10 :
    (∀ listeners feasibility,
      executeAfterCollect listeners feasibility executeForceDefault =
        executeAfterCollect listeners feasibility true) ∧
    (∀ listeners feasibility,
      (executeAfterCollect listeners feasibility true).applyInvoked = true) ∧
    (∀ permitted feasibility, applyGate permitted feasibility true = true) := by
  refine ⟨fun _ _ => rfl, fun listeners feasibility => ?_, fun permitted feasibility => ?_⟩
  · simp [executeAfterCollect, applyGate]
  · simp [applyGate]

/-! ## Reaction and counter nesting (Action.ts lines 226-241) -/

/-- Action.react (lines 234-241): `action.nested = this.nested + 1;
if (action.nested < 10) return action.execute(); return false;`.  The
follow-up's execute is abstracted by the Boolean it would return, as a function
of the follow-up's new nesting level. -/
def Action.react (selfNested : Nat) (execute : Nat → Bool) : Nat × Bool :=
  let nested := selfNested + 1
  (nested, if nested < 10 then execute nested else false)

/-- Action.counter (lines 226-232): byte-for-byte the same logic as react. -/
def Action.counter (selfNested : Nat) (execute : Nat → Bool) : Nat × Bool :=
  let nested := selfNested + 1
  (nested, if nested < 10 then execute nested else false)

/-- Worst-case reaction chain: starting from an executing action with nesting
level `n`, every executed action immediately reacts with one follow-up (the
cyclic-counter scenario of the spec's test 5).  Counts the follow-ups that
execute; the chain is finite because the source only recurses below level 10. -/
def reactChainCount (n : Nat) : Nat :=
  if h : n + 1 < 10 then 1 + reactChainCount (n + 1) else 0
termination_by 10 - n
decreasing_by omega

theorem reactChainCount_eq : ∀ n : Nat, reactChainCount n = 9 - n
  | n => by
    rw [reactChainCount]
    by_cases h : n + 1 < 10
    · rw [dif_pos h, reactChainCount_eq (n + 1)]
      omega
    · rw [dif_neg h]
      omega
termination_by n => 10 - n
decreasing_by omega

/-- C8: react and counter both set the follow-up's `nested` to the parent's
plus one; the follow-up executes exactly when its new level is below 10 and
otherwise `false` is returned without executing (the result does not depend on
the follow-up at all); therefore the worst-case chain from nesting level 0
executes only 9 follow-ups, i.e. terminates within 10 nesting levels. -/
theorem claim_c8 :
    (∀ n execute, (Action.react n execute).1 = n + 1 ∧ (Action.counter n execute).1 = n + 1) ∧
    (∀ n execute, n + 1 < 10 →
      (Action.react n execute).2 = execute (n + 1) ∧
      (Action.counter n execute).2 = execute (n + 1)) ∧
    (∀ n execute, ¬ n + 1 < 10 →
      (Action.react n execute).2 = false ∧ (Action.counter n execute).2 = false) ∧
    (∀ n, reactChainCount n = 9 - n) ∧
    reactChainCount 0 = 9 ∧ (∀ n, 1 + reactChainCount n ≤ 10) := by
  refine ⟨fun n execute => ⟨rfl, rfl⟩, ?_, ?_, reactChainCount_eq, ?_, ?_⟩
  · intro n execute h
    constructor <;> simp [Action.react, Action.counter, if_pos h]
  · intro n execute h
    constructor <;> simp [Action.react, Action.counter, if_neg h]
  · rw [reactChainCount_eq]
  · intro n
    rw [reactChainCount_eq]
    omega

/-- Witness for C8 at concrete nesting levels: at level 0 the follow-up
executes (its execute result is passed through), at level 9 it is dropped and
react returns false. -/
theorem claim_c8_witness :
    ((Action.react 0 fun _ => true).2 = (fun _ : Nat => true) (0 + 1) ∧
      (Action.counter 0 fun _ => true).2 = (fun _ : Nat => true) (0 + 1)) ∧
    ((Action.react 9 fun _ => true).2 = false ∧ (Action.counter 9 fun _ => true).2 = false) :=
  ⟨claim_c8.2.1 0 (fun _ => true) (by decide), claim_c8.2.2.1 9 (fun _ => true) (by decide)⟩

/-! ## Listener collection (Action.ts lines 123-178)

Containers are referred to by their id; identifiers are unique process-wide, so
reference equality on entities coincides with id equality.  Modelled from the
spec: `World.getEntitiesWithinRadius` (src/src/World/World.ts is not among the
sources) is abstracted as a per-world query returning the ids of the entities
within the Chebyshev listen radius of a position — Action.ts only consumes its
result list. -/

structure LWorld where
  id : String
  entitiesWithinRadius : Int × Int → Nat → List String

structure LEntity where
  id : String
  world : Option LWorld
  position : Int × Int

/-- The `listeners` array and `listenerIds` set of an action. -/
structure Listeners where
  listeners : List String
  listenerIds : List String
deriving DecidableEq, Repr

/-- Action.addListener (lines 123-128): push only when the id is new. -/
def Action.addListener (st : Listeners) (cid : String) : Listeners :=
  if cid ∈ st.listenerIds then st
  else ⟨st.listeners ++ [cid], st.listenerIds ++ [cid]⟩

/-- Action.collectListeners (lines 130-178). -/
def Action.collectListeners (gameId : String) (listenRadius : Nat)
    (caster target : Option LEntity)
    (additionalListenPoints : List (LWorld × (Int × Int)))
    (additionalListeners : List String) : Listeners :=
  let st : Listeners := ⟨[], []⟩
  -- caster, nearby entities other than caster/target, caster's world (137-148)
  let st :=
    match caster with
    | none => st
    | some c =>
      let st := Action.addListener st c.id
      match c.world with
      | none => st
      | some w =>
        let st := (w.entitiesWithinRadius c.position listenRadius).foldl
          (fun st eid =>
            if (eid != c.id && (match target with | some t => eid != t.id | none => true)) then
              Action.addListener st eid
            else st) st
        Action.addListener st w.id
  -- the game itself (153)
  let st := Action.addListener st gameId
  -- target's world, nearby entities, target, when target is not the caster (158-166)
  let st :=
    match target with
    | none => st
    | some t =>
      if (match caster with | some c => t.id == c.id | none => false) then st
      else
        let st :=
          match t.world with
          | none => st
          | some w =>
            let st := Action.addListener st w.id
            (w.entitiesWithinRadius t.position listenRadius).foldl
              (fun st eid => Action.addListener st eid) st
        Action.addListener st t.id
  -- additional listen points: world then nearby entities (169-174)
  let st := additionalListenPoints.foldl
    (fun st pw =>
      let st := Action.addListener st pw.1.id
      (pw.1.entitiesWithinRadius pw.2 listenRadius).foldl
        (fun st eid => Action.addListener st eid) st) st
  -- additional listeners verbatim (177)
  additionalListeners.foldl Action.addListener st

/-- Append-if-absent, the effect of addListener on either of its two lists. -/
def addUnique (l : List String) (x : String) : List String :=
  if x ∈ l then l else l ++ [x]

/-- First-occurrence deduplication of a list of ids. -/
def dedupKeepFirst (l : List String) : List String := l.foldl addUnique []

/-- The order the claim asserts for the collected listeners, before
deduplication: caster, entities near the caster except caster and target,
caster's world, the game, target's world, entities near the target, target,
each additional listen point's world and nearby entities, and the additional
listeners. -/
def claimedListenerOrder (gameId : String) (listenRadius : Nat) (c t : LEntity)
    (wc wt : LWorld) (additionalListenPoints : List (LWorld × (Int × Int)))
    (additionalListeners : List String) : List String :=
  c.id ::
    ((wc.entitiesWithinRadius c.position listenRadius).filter
      (fun eid => eid != c.id && eid != t.id)) ++
    [wc.id, gameId, wt.id] ++
    wt.entitiesWithinRadius t.position listenRadius ++
    [t.id] ++
    (additionalListenPoints.map
      (fun pw => pw.1.id :: pw.1.entitiesWithinRadius pw.2 listenRadius)).flatten ++
    additionalListeners

theorem foldl_addListener_pair (xs : List String) (l : List String) :
    xs.foldl Action.addListener ⟨l, l⟩ = ⟨xs.foldl addUnique l, xs.foldl addUnique l⟩ := by
  induction xs generalizing l with
  | nil => rfl
  | cons x rest ih =>
    by_cases h : x ∈ l
    · simp only [List.foldl_cons, Action.addListener, addUnique, if_pos h]
      exact ih l
    · simp only [List.foldl_cons, Action.addListener, addUnique, if_neg h]
      exact ih (l ++ [x])

theorem foldl_addListener_filter (p : String → Bool) (xs : List String) (st : Listeners) :
    xs.foldl (fun st eid => if p eid then Action.addListener st eid else st) st =
      (xs.filter p).foldl Action.addListener st := by
  induction xs generalizing st with
  | nil => rfl
  | cons x rest ih =>
    by_cases h : p x
    · simp only [List.foldl_cons, if_pos h, List.filter_cons, h, ite_true]
      exact ih _
    · simp only [List.foldl_cons, if_neg h, List.filter_cons, h]
      simpa using ih st

theorem addListener_eq_foldl (st : Listeners) (x : String) :
    Action.addListener st x = [x].foldl Action.addListener st := rfl

theorem foldl_addListener_points (points : List (LWorld × (Int × Int))) (r : Nat)
    (st : Listeners) :
    points.foldl
      (fun st pw =>
        let st := Action.addListener st pw.1.id
        (pw.1.entitiesWithinRadius pw.2 r).foldl (fun st eid => Action.addListener st eid) st) st =
    ((points.map (fun pw => pw.1.id :: pw.1.entitiesWithinRadius pw.2 r)).flatten).foldl
      Action.addListener st := by
  induction points generalizing st with
  | nil => rfl
  | cons pw rest ih =>
    simp only [List.foldl_cons, List.map_cons, List.flatten_cons, List.foldl_append]
    exact ih _

theorem nodup_foldl_addUnique (xs : List String) (l : List String) (hl : l.Nodup) :
    (xs.foldl addUnique l).Nodup := by
  induction xs generalizing l with
  | nil => exact hl
  | cons x rest ih =>
    by_cases h : x ∈ l
    · simp only [List.foldl_cons, addUnique, if_pos h]
      exact ih l hl
    · simp only [List.foldl_cons, addUnique, if_neg h]
      refine ih _ (List.Nodup.append hl (List.nodup_singleton x) ?_)
      intro a ha hax
      rw [List.mem_singleton.mp hax] at ha
      exact h ha

theorem mem_foldl_addUnique (xs : List String) (l : List String) (x : String) :
    x ∈ xs.foldl addUnique l ↔ x ∈ l ∨ x ∈ xs := by
  induction xs generalizing l with
  | nil => simp
  | cons y rest ih =>
    by_cases h : y ∈ l
    · simp only [List.foldl_cons, addUnique, if_pos h, ih, List.mem_cons]
      constructor
      · rintro (hx | hx)
        · exact Or.inl hx
        · exact Or.inr (Or.inr hx)
      · rintro (hx | hx | hx)
        · exact Or.inl hx
        · exact Or.inl (hx ▸ h)
        · exact Or.inr hx
    · simp only [List.foldl_cons, addUnique, if_neg h, ih, List.mem_append,
        List.mem_singleton, List.mem_cons]
      tauto

/-- C9: for an action with a caster and a distinct target, both published to
worlds, collectListeners produces exactly the claimed order, deduplicated by
first occurrence; `listeners` and `listenerIds` agree, contain no id twice,
and contain an id exactly when it occurs in the claimed order. -/
theorem claim_c9 (gameId : String) (listenRadius : Nat) (c t : LEntity) (wc wt : LWorld)
    (additionalListenPoints : List (LWorld × (Int × Int))) (additionalListeners : List String)
    (hct : t.id ≠ c.id) (hwc : c.world = some wc) (hwt : t.world = some wt) :
    Action.collectListeners gameId listenRadius (some c) (some t)
        additionalListenPoints additionalListeners =
      ⟨dedupKeepFirst (claimedListenerOrder gameId listenRadius c t wc wt
          additionalListenPoints additionalListeners),
        dedupKeepFirst (claimedListenerOrder gameId listenRadius c t wc wt
          additionalListenPoints additionalListeners)⟩ ∧
    (dedupKeepFirst (claimedListenerOrder gameId listenRadius c t wc wt
        additionalListenPoints additionalListeners)).Nodup ∧
    (∀ x, x ∈ dedupKeepFirst (claimedListenerOrder gameId listenRadius c t wc wt
        additionalListenPoints additionalListeners) ↔
      x ∈ claimedListenerOrder gameId listenRadius c t wc wt
        additionalListenPoints additionalListeners) := by
  refine ⟨?_, nodup_foldl_addUnique _ [] List.nodup_nil, fun x => by
    simpa using mem_foldl_addUnique (claimedListenerOrder gameId listenRadius c t wc wt
      additionalListenPoints additionalListeners) [] x⟩
  have htc : (t.id == c.id) = false := by
    simpa using hct
  rw [Action.collectListeners, hwc, hwt]
  simp only [htc, Bool.false_eq_true, if_false]
  simp only [show (fun (st : Listeners) (eid : String) => Action.addListener st eid) =
    Action.addListener from rfl]
  rw [foldl_addListener_filter, foldl_addListener_points]
  rw [claimedListenerOrder, dedupKeepFirst]
  simp only [addListener_eq_foldl, ← List.foldl_append, List.append_assoc, List.cons_append,
    List.nil_append]
  rw [← foldl_addListener_pair]

/-- A concrete caster world for the C9 witness. -/
def c9wc : LWorld := ⟨"W1", fun _ _ => ["E1", "C", "T"]⟩

/-- A concrete target world for the C9 witness. -/
def c9wt : LWorld := ⟨"W2", fun _ _ => ["E2", "E1"]⟩

/-- A concrete extra listen-point world for the C9 witness. -/
def c9w3 : LWorld := ⟨"W3", fun _ _ => ["E3"]⟩

/-- The caster for the C9 witness. -/
def c9c : LEntity := ⟨"C", some c9wc, (0, 0)⟩

/-- The target for the C9 witness. -/
def c9t : LEntity := ⟨"T", some c9wt, (5, 5)⟩

/-- Witness for C9 on a concrete configuration (note the duplicates E1 and G in
the raw order are kept only at their first occurrence). -/
theorem claim_c9_witness :
    Action.collectListeners "G" 25 (some c9c) (some c9t) [(c9w3, (9, 9))] ["A1", "G"] =
      ⟨["C", "E1", "W1", "G", "W2", "E2", "T", "W3", "E3", "A1"],
        ["C", "E1", "W1", "G", "W2", "E2", "T", "W3", "E3", "A1"]⟩ := by
  have h := (claim_c9 "G" 25 c9c c9t c9wc c9wt [(c9w3, (9, 9))] ["A1", "G"]
    (by decide) rfl rfl).1
  rw [h]
  rfl

/-! ## Visibility Scope (src/unnamed/part_002)

Chunk keys are `"x,y"` strings built by `Vector.getIndexString`; the pair
`(x, y)` stands in for the string (the encoding is injective).  Modelled from
the spec: `Vector.add` (src/Math/Vector.ts is not among the sources) is
componentwise addition and `Vector.clamp` bounds the components to
`[0, size.x] x [0, size.y]`; neither is exercised with `size` set in the
theorems below. -/

abbrev ChunkKey := Int × Int

structure WScope where
  active : List ChunkKey
  chunkViewers : List (ChunkKey × List String)
  size : Option (Int × Int)
deriving DecidableEq, Repr

/-- Scope.addChunkViewer (part_002 lines 15-24).  In the already-viewed branch
the source dereferences `chunkViewers.get(chunk)!`; a missing entry would be a
TypeError, modelled as `none`. -/
def addChunkViewer (s : WScope) (viewer : String) (chunk : ChunkKey) :
    Option (WScope × Bool) :=
  if chunk ∈ s.active then
    match mapGet s.chunkViewers chunk with
    | none => none
    | some viewers =>
      some ({ s with chunkViewers := mapSet s.chunkViewers chunk (setAdd viewers viewer) }, false)
  else
    some ({ s with
              active := s.active ++ [chunk]
              chunkViewers := mapSet s.chunkViewers chunk [viewer] }, true)

/-- Scope.removeChunkViewer (part_002 lines 27-38).  Note that `active` is
never touched here. -/
def removeChunkViewer (s : WScope) (viewer : String) (chunk : ChunkKey) : WScope × Bool :=
  match mapGet s.chunkViewers chunk with
  | none => (s, false)
  | some viewers =>
    if viewer ∈ viewers then
      let viewers := viewers.erase viewer
      if viewers.isEmpty then
        ({ s with chunkViewers := mapDelete s.chunkViewers chunk }, true)
      else
        ({ s with chunkViewers := mapSet s.chunkViewers chunk viewers }, false)
    else (s, false)

def intRange (lo hi : Int) : List Int :=
  (List.range (hi + 1 - lo).toNat).map fun i => lo + i

def vclamp (v : ChunkKey) (size : Int × Int) : ChunkKey :=
  (max 0 (min v.1 size.1), max 0 (min v.2 size.2))

/-- Scope.getChunksInView (part_002 lines 90-104): the square from
`center - (distance, distance)` to `center + (distance, distance)`, clamped to
the world size when one is set; a Set of keys, built in loop order. -/
def getChunksInView (s : WScope) (center : ChunkKey) (distance : Int) : List ChunkKey :=
  let topLeft := (center.1 - distance, center.2 - distance)
  let bottomRight := (center.1 + distance, center.2 + distance)
  let topLeft := match s.size with | some sz => vclamp topLeft sz | none => topLeft
  let bottomRight := match s.size with | some sz => vclamp bottomRight sz | none => bottomRight
  ((intRange topLeft.1 bottomRight.1).map fun x =>
    (intRange topLeft.2 bottomRight.2).map fun y => (x, y)).flatten

/-- subtract (part_002 lines 108-116): the body iterates `for (let s in from)`;
`from` is a Set, whose enumerable keys are none at all, so nothing is ever
pushed and the result is always empty. -/
def subtract (_sub _removedFrom : List ChunkKey) : List ChunkKey := []

/-- Scope.addViewer (part_002 lines 40-51): the new chunks (all chunks in view
of `to` when `fromPos` is absent, the for-in-crippled `subtract` difference
otherwise) are walked with `for...of`, which does iterate the Set's elements;
each is added via addChunkViewer, collecting the freshly activated keys. -/
def addViewer (s : WScope) (viewer : String) (viewDistance : Int) (toPos : ChunkKey)
    (fromPos : Option ChunkKey) : Option (WScope × (List ChunkKey × List ChunkKey)) :=
  let newChunks := match fromPos with
    | some f => subtract (getChunksInView s f viewDistance) (getChunksInView s toPos viewDistance)
    | none => getChunksInView s toPos viewDistance
  let folded := newChunks.foldl
    (fun acc ch =>
      match acc with
      | none => none
      | some (s, added) =>
        match addChunkViewer s viewer ch with
        | none => none
        | some (s, fresh) => some (s, if fresh then added ++ [ch] else added))
    (some (s, []))
  match folded with
  | none => none
  | some (s, added) => some (s, (added, []))

/-- Scope.removeViewer (part_002 lines 53-64): `oldChunks` is the Set of chunks
in view of `fromPos` (when `to` is absent) or the Array produced by `subtract`
(always empty).  Line 58 iterates it with `for (let chunk in oldChunks)`: over
a Set this yields no keys at all, over the empty Array none either, so the body
never runs and no viewer is ever removed. -/
def removeViewer (s : WScope) (viewer : String) (viewDistance : Int) (fromPos : ChunkKey)
    (toPos : Option ChunkKey) : WScope × (List ChunkKey × List ChunkKey) :=
  let _oldChunks := match toPos with
    | some t => subtract (getChunksInView s t viewDistance) (getChunksInView s fromPos viewDistance)
    | none => getChunksInView s fromPos viewDistance
  (s, ([], []))

def emptyScope : WScope := ⟨[], [], none⟩

set_option maxRecDepth 100000 in
/-- C4: the claim fails on the code.  On an empty scope, `addViewer "v" (0,0)`
(no `from`) populates the 13x13 view square (view distance 6, the engine
default), but `removeViewer "v" (0,0)` (no `to`) iterates the chunk Set with
`for...in` and hence removes nothing: `chunk_viewers` is left exactly as
`addViewer` made it, not restored to its previous (empty) value. -/
theorem claim_c4 :
    (addViewer emptyScope "v" 6 (0, 0) none).isSome = true ∧
    ((addViewer emptyScope "v" 6 (0, 0) none).getD (emptyScope, ([], []))).1 ≠ emptyScope ∧
    removeViewer ((addViewer emptyScope "v" 6 (0, 0) none).getD (emptyScope, ([], []))).1
        "v" 6 (0, 0) none =
      (((addViewer emptyScope "v" 6 (0, 0) none).getD (emptyScope, ([], []))).1, ([], [])) ∧
    ((addViewer emptyScope "v" 6 (0, 0) none).getD (emptyScope, ([], []))).1.chunkViewers ≠
      emptyScope.chunkViewers := by
  refine ⟨?_, ?_, rfl, ?_⟩ <;> decide

/-- The invariant of C5: `active` holds exactly the chunk keys whose
`chunk_viewers` entry exists and is non-empty. -/
abbrev activeMatchesViewers (s : WScope) : Prop :=
  (∀ k ∈ s.active, (mapGet s.chunkViewers k).getD [] ≠ []) ∧
  (∀ kv ∈ s.chunkViewers, kv.2 ≠ [] → kv.1 ∈ s.active)

/-- C5: the claim fails on the code.  After `addChunkViewer "v" (0,0)` the
invariant holds, but `removeChunkViewer "v" (0,0)` deletes the last viewer and
the `chunk_viewers` entry while never removing the chunk from `active`, so the
reachable state has `active = [(0,0)]` and no viewers at all. -/
theorem claim_c5 :
    activeMatchesViewers emptyScope ∧
    activeMatchesViewers ((addChunkViewer emptyScope "v" (0, 0)).getD (emptyScope, false)).1 ∧
    ((addChunkViewer emptyScope "v" (0, 0)).getD (emptyScope, false)).1.active = [(0, 0)] ∧
    (removeChunkViewer ((addChunkViewer emptyScope "v" (0, 0)).getD (emptyScope, false)).1
        "v" (0, 0)).1.active = [(0, 0)] ∧
    (removeChunkViewer ((addChunkViewer emptyScope "v" (0, 0)).getD (emptyScope, false)).1
        "v" (0, 0)).1.chunkViewers = [] ∧
    ¬ activeMatchesViewers
      (removeChunkViewer ((addChunkViewer emptyScope "v" (0, 0)).getD (emptyScope, false)).1
        "v" (0, 0)).1 := by
  refine ⟨?_, ?_, ?_, ?_, ?_, ?_⟩ <;> decide

/-! ## Publishing an entity (src/src/EntityComponent/Entity.ts lines 170-181,
src/src/Events/Actions/PublishEntityAction.ts lines 36-39) -/

structure PubEntity where
  id : String
  published : Bool
  active : Bool
  position : Int × Int
  worldId : Option String
deriving DecidableEq, Repr

/-- The state Entity._publish touches: the entity itself, the world's entity
registration (`world.addEntity`) and the game registry (`Game.addEntity`),
both kept as id lists. -/
structure PubState where
  entity : PubEntity
  worldEntities : List String
  gameEntities : List String
deriving DecidableEq, Repr

/-- Entity._publish (Entity.ts lines 170-181): no-op returning false when
already published; otherwise set `published`, store position and world,
register with world and game, and return true.  `components.publish()` touches
no state modelled here. -/
def Entity._publish (st : PubState) (worldId : String) (pos : Int × Int) : PubState × Bool :=
  if st.entity.published then (st, false)
  else
    ({ entity := { st.entity with published := true, position := pos, worldId := some worldId }
       worldEntities := st.worldEntities ++ [st.entity.id]
       gameEntities := st.gameEntities ++ [st.entity.id] }, true)

/-- PublishEntityAction.apply (PublishEntityAction.ts lines 36-39):
`this.entity._publish(this.world, this.position); return false;` — the
hard-coded false discards _publish's result. -/
def PublishEntityAction.apply (st : PubState) (worldId : String) (pos : Int × Int) :
    PubState × Bool :=
  let r := Entity._publish st worldId pos
  (r.1, false)

/-- An unpublished entity, for the C6 failing input. -/
def c6initial : PubState := ⟨⟨"e1", false, false, (0, 0), none⟩, [], []⟩

/-- C6: the claim fails on the code.  Applying PublishEntityAction to a
previously unpublished entity publishes it — `_publish` changes the state and
itself returns true — yet `apply()` returns the literal `false`. -/
theorem claim_c6 :
    (Entity._publish c6initial "w1" (3, 4)).2 = true ∧
    (PublishEntityAction.apply c6initial "w1" (3, 4)).1.entity.published = true ∧
    (PublishEntityAction.apply c6initial "w1" (3, 4)).1 ≠ c6initial ∧
    (PublishEntityAction.apply c6initial "w1" (3, 4)).2 = false := by
  refine ⟨rfl, rfl, ?_, rfl⟩
  decide

/-! ## Scope-filtered snapshot (src/src/Game/Game.ts lines 258-283)

The Viewer interface (src/src/Game/Interfaces.ts is not among the sources) is
modelled from its call sites in Game.ts and Action.ts: `getWorldScopes()`
returns a `Map<worldId, Scope>` (here: the list of its keys) and
`getEntitiesInSight()` a `Set<entityId>`. -/

structure ViewerModel where
  worldScopes : List String
  entitiesInSight : List String
deriving DecidableEq, Repr

structure GameModel where
  name : String
  players : List String
  teams : List String
  worlds : List String
  entities : List String
deriving DecidableEq, Repr

structure Snapshot where
  name : String
  players : List String
  teams : List String
  worlds : List String
  entities : List String
deriving DecidableEq, Repr

/-- Game.serializeForScope (Game.ts lines 258-283).  All players and teams are
serialized (lines 261-267; ids stand in for the serialized records).  Lines
269-274 run `for (let worldId in viewer.getWorldScopes())`: a Map has no
enumerable keys, so the loop body never executes and no world is pushed; lines
276-281 do the same over the Set from `getEntitiesInSight()`. -/
def serializeForScope (g : GameModel) (viewer : ViewerModel) : Snapshot :=
  { name := g.name
    players := g.players
    teams := g.teams
    worlds := []
    entities := [] }

/-- The worlds list the claim describes: one entry per world in the viewer's
world-scope map that exists in the game registry. -/
def claimedScopeWorlds (g : GameModel) (viewer : ViewerModel) : List String :=
  viewer.worldScopes.filter (fun w => g.worlds.contains w)

/-- The entities list the claim describes: the entities the viewer senses or
owns (the source's `entitiesInSight`), resolved against the registry. -/
def claimedScopeEntities (g : GameModel) (viewer : ViewerModel) : List String :=
  viewer.entitiesInSight.filter (fun e => g.entities.contains e)

/-- The game for the C7 failing input: one world and one entity, both known to
the registry and both in the viewer's scope and sight. -/
def c7game : GameModel := ⟨"g", ["p1"], [], ["w1"], ["e1"]⟩

/-- The viewer for the C7 failing input. -/
def c7viewer : ViewerModel := ⟨["w1"], ["e1"]⟩

/-- C7: the claim fails on the code.  The `for...in` loops over the world-scope
Map and the entities-in-sight Set iterate nothing, so the snapshot's `worlds`
and `entities` come out empty even for a viewer with a scope on a registered
world and a sensed registered entity. -/
theorem claim_c7 :
    (serializeForScope c7game c7viewer).worlds = [] ∧
    (serializeForScope c7game c7viewer).entities = [] ∧
    claimedScopeWorlds c7game c7viewer = ["w1"] ∧
    claimedScopeEntities c7game c7viewer = ["e1"] ∧
    (serializeForScope c7game c7viewer).worlds ≠ claimedScopeWorlds c7game c7viewer := by
  refine ⟨rfl, rfl, rfl, rfl, ?_⟩
  decide

/-! ## Component catalog and subscription graph (src/unnamed/part_000)

Containers are addressed by id; a catalog's `parent.isPublished()` and
`parent.getComponentContainerByScope(scope)` are carried as the `published`
flag and the `containerByScope` map, fixed per container as in the parent
classes.  A component's capability flags stand for the duck-typed
`isSensor` / `isModifier` / `isReacter` checks. -/

inductive CompType
  | sensor
  | roller
  | modifier
  | reacter
deriving DecidableEq, Repr

inductive ScopeTag
  | entity
  | world
  | player
  | team
  | game
deriving DecidableEq, Repr

/-- part_000 lines 11-17. -/
def validSubscriptions : ScopeTag → List ScopeTag
  | .entity => [.world, .player, .team, .game]
  | .world => [.game]
  | .player => [.team, .game]
  | .team => [.game]
  | .game => []

structure CompScopeDecl where
  sensor : Option ScopeTag := none
  modifier : Option ScopeTag := none
  reacter : Option ScopeTag := none
deriving DecidableEq, Repr

structure CComponent where
  id : String
  isSensor : Bool
  isModifier : Bool
  isReacter : Bool
  scope : CompScopeDecl
deriving DecidableEq, Repr

/-- A Subscription record (part_000 lines 4-9 as constructed on line 177-182);
`toId` is the `to` container reference, kept as an id. -/
structure CSubscription where
  componentId : String
  toId : String
  type : CompType
  scope : ScopeTag
deriving DecidableEq, Repr

structure Catalog where
  parentId : String
  parentScope : ScopeTag
  published : Bool
  containerByScope : ScopeTag → Option String
  all : List (String × CComponent)
  subscribersSensor : List (String × CComponent)
  subscribersRoller : List (String × CComponent)
  subscribersModifier : List (String × CComponent)
  subscribersReacter : List (String × CComponent)
  subsEntity : List (String × CSubscription)
  subsWorld : List (String × CSubscription)
  subsPlayer : List (String × CSubscription)
  subsTeam : List (String × CSubscription)
  subsGame : List (String × CSubscription)

def subscribersOf (c : Catalog) : CompType → List (String × CComponent)
  | .sensor => c.subscribersSensor
  | .roller => c.subscribersRoller
  | .modifier => c.subscribersModifier
  | .reacter => c.subscribersReacter

def setSubscribers (c : Catalog) : CompType → List (String × CComponent) → Catalog
  | .sensor, m => { c with subscribersSensor := m }
  | .roller, m => { c with subscribersRoller := m }
  | .modifier, m => { c with subscribersModifier := m }
  | .reacter, m => { c with subscribersReacter := m }

def subsOf (c : Catalog) : ScopeTag → List (String × CSubscription)
  | .entity => c.subsEntity
  | .world => c.subsWorld
  | .player => c.subsPlayer
  | .team => c.subsTeam
  | .game => c.subsGame

def setSubs (c : Catalog) : ScopeTag → List (String × CSubscription) → Catalog
  | .entity, m => { c with subsEntity := m }
  | .world, m => { c with subsWorld := m }
  | .player, m => { c with subsPlayer := m }
  | .team, m => { c with subsTeam := m }
  | .game, m => { c with subsGame := m }

/-- The catalogs of all containers, by container id. -/
abbrev CatState := List (String × Catalog)

def updateCat (st : CatState) (cid : String) (f : Catalog → Catalog) : CatState :=
  st.map fun kv => if kv.1 = cid then (kv.1, f kv.2) else kv

/-- ComponentCatalog.attachSubscriber (part_000 lines 187-189). -/
def attachSubscriber (c : Catalog) (comp : CComponent) (t : CompType) : Catalog :=
  setSubscribers c t (mapSet (subscribersOf c t) comp.id comp)

/-- ComponentCatalog.removeSubscriber (part_000 lines 191-193). -/
def removeSubscriber (c : Catalog) (id : String) (t : CompType) : Catalog :=
  setSubscribers c t (mapDelete (subscribersOf c t) id)

/-- ComponentCatalog.subscribeToOther (part_000 lines 171-184): resolve the
target container by scope; when it exists, attach the component to its
subscribers and record the Subscription locally. -/
def subscribeToOther (st : CatState) (aId : String) (comp : CComponent) (t : CompType)
    (scope : ScopeTag) : CatState :=
  match mapGet st aId with
  | none => st
  | some a =>
    match a.containerByScope scope with
    | none => st
    | some bId =>
      let st := updateCat st bId (fun b => attachSubscriber b comp t)
      updateCat st aId (fun x => setSubs x scope
        (mapSet (subsOf x scope) comp.id ⟨comp.id, bId, t, scope⟩))

/-- ComponentCatalog.createSubscriptions (part_000 lines 141-168), one block
per role the component implements; the fallback attaches to the catalog's own
subscribers.  `parentScope`, `published` and the scope resolver are read from
the parent and unaffected by the updates, so they are captured once. -/
def createSubscriptions (st : CatState) (aId : String) (comp : CComponent) : CatState :=
  match mapGet st aId with
  | none => st
  | some a =>
    let doRole := fun (st : CatState) (isRole : Bool) (roleScope : Option ScopeTag)
        (t : CompType) =>
      if isRole then
        match roleScope with
        | some sc =>
          if sc ∈ validSubscriptions a.parentScope ∧ a.published = true then
            subscribeToOther st aId comp t sc
          else updateCat st aId (fun x => attachSubscriber x comp t)
        | none => updateCat st aId (fun x => attachSubscriber x comp t)
      else st
    let st := doRole st comp.isSensor comp.scope.sensor .sensor
    let st := doRole st comp.isModifier comp.scope.modifier .modifier
    doRole st comp.isReacter comp.scope.reacter .reacter

/-- ComponentCatalog.addComponent (part_000 lines 69-75). -/
def addComponent (st : CatState) (aId : String) (comp : CComponent) : CatState :=
  let st := updateCat st aId (fun a => { a with all := mapSet a.all comp.id comp })
  createSubscriptions st aId comp

/-- ComponentCatalog.unsubscribeFromOther (part_000 lines 104-106). -/
def unsubscribeFromOther (st : CatState) (sub : CSubscription) : CatState :=
  updateCat st sub.toId (fun b => removeSubscriber b sub.componentId sub.type)

/-- ComponentCatalog.removeComponent (part_000 lines 78-102): deletes from
`all`, then for each scope whose subscription map holds the id it fetches —
for every scope — `this.subscriptions.entity.get(id)!` (the lines 87, 91, 95
and 99 copy-paste) and unsubscribes through it; dereferencing the undefined
result is a TypeError, modelled as `none`.  The local subscription maps are
never cleared. -/
def removeComponent (st : CatState) (aId : String) (comp : CComponent) : Option CatState :=
  match mapGet st aId with
  | none => some st
  | some a =>
    let st := updateCat st aId (fun x => { x with all := mapDelete x.all comp.id })
    let stepScope := fun (stO : Option CatState) (checkMap : List (String × CSubscription)) =>
      match stO with
      | none => none
      | some st =>
        if (mapGet checkMap comp.id).isSome then
          match mapGet a.subsEntity comp.id with
          | some sub => some (unsubscribeFromOther st sub)
          | none => none
        else some st
    stepScope (stepScope (stepScope (stepScope (stepScope (some st)
      a.subsEntity) a.subsWorld) a.subsPlayer) a.subsTeam) a.subsGame

/-- ComponentCatalog.removeAllSubscriptions (part_000 lines 116-126): despite
the call-site comment, it deletes every *incoming* subscriber of the sensor,
modifier and reacter roles from this catalog. -/
def removeAllSubscriptions (st : CatState) (aId : String) : CatState :=
  match mapGet st aId with
  | none => st
  | some a =>
    updateCat st aId (fun x =>
      let x := a.subscribersSensor.foldl (fun y kv => removeSubscriber y kv.2.id .sensor) x
      let x := a.subscribersModifier.foldl (fun y kv => removeSubscriber y kv.2.id .modifier) x
      a.subscribersReacter.foldl (fun y kv => removeSubscriber y kv.2.id .reacter) x)

/-- ComponentCatalog.subscribeToAll (part_000 lines 109-114). -/
def subscribeToAll (st : CatState) (aId : String) : CatState :=
  let st := removeAllSubscriptions st aId
  match mapGet st aId with
  | none => st
  | some a => a.all.foldl (fun st kv => createSubscriptions st aId kv.2) st

/-- ComponentCatalog.unsubscribeFromAll (part_000 lines 128-139): walks the
entity, world and game subscription maps — the player and team maps are
skipped — removing the remote subscriber for each; the local maps are never
cleared. -/
def unsubscribeFromAll (st : CatState) (aId : String) : CatState :=
  match mapGet st aId with
  | none => st
  | some a =>
    let st := a.subsEntity.foldl (fun st kv => unsubscribeFromOther st kv.2) st
    let st := a.subsWorld.foldl (fun st kv => unsubscribeFromOther st kv.2) st
    a.subsGame.foldl (fun st kv => unsubscribeFromOther st kv.2) st

def subsAll (c : Catalog) : List (String × CSubscription) :=
  c.subsEntity ++ c.subsWorld ++ c.subsPlayer ++ c.subsTeam ++ c.subsGame

/-- Whether a recorded subscription has its matching remote subscriber entry. -/
def subscriberMatch (st : CatState) (sub : CSubscription) : Bool :=
  match mapGet st sub.toId with
  | some b => (subscribersOf b sub.type).any fun e => e.1 == sub.componentId
  | none => false

def allCompTypes : List CompType := [.sensor, .roller, .modifier, .reacter]

/-- How many subscription entries anywhere point at container `aId` for role
`t` with this component id. -/
def matchingSubscriptionCount (st : CatState) (aId : String) (t : CompType)
    (compId : String) : Nat :=
  (st.map fun kv =>
    ((subsAll kv.2).filter fun s =>
      s.2.componentId == compId && s.2.toId == aId && s.2.type == t).length).sum

/-- The invariant of C3: every subscription entry has a matching subscriber
entry on the container it points to, and every subscriber entry is pointed at
by exactly one subscription entry. -/
abbrev catalogInvariant (st : CatState) : Prop :=
  (∀ kv ∈ st, ∀ sub ∈ subsAll kv.2, subscriberMatch st sub.2 = true) ∧
  (∀ kv ∈ st, ∀ t ∈ allCompTypes, ∀ e ∈ subscribersOf kv.2 t,
    matchingSubscriptionCount st kv.1 t e.1 = 1)

def emptyCatalog (pid : String) (ps : ScopeTag) (pub : Bool)
    (cbs : ScopeTag → Option String) : Catalog :=
  ⟨pid, ps, pub, cbs, [], [], [], [], [], [], [], [], [], []⟩

/-- Catalog of a published entity A that resolves the game scope to G and the
world scope to W. -/
def c3catA : Catalog :=
  emptyCatalog "A" .entity true fun s =>
    match s with
    | .game => some "G"
    | .world => some "W"
    | _ => none

def c3catG : Catalog := emptyCatalog "G" .game true fun _ => none

def c3catW : Catalog :=
  emptyCatalog "W" .world true fun s => match s with | .game => some "G" | _ => none

def c3st0 : CatState := [("A", c3catA), ("G", c3catG), ("W", c3catW)]

/-- A sensor component on A listening at game scope. -/
def c3compSensorGame : CComponent := ⟨"c1", true, false, false, ⟨some .game, none, none⟩⟩

/-- A modifier component on A listening at world scope. -/
def c3compModWorld : CComponent := ⟨"c2", false, true, false, ⟨none, some .world, none⟩⟩

def c3st1 : CatState := addComponent c3st0 "A" c3compSensorGame

def c3st2 : CatState := unsubscribeFromAll c3st1 "A"

/-- C3: the claim fails on the code.  After A's sensor subscribes to the game
catalog the invariant holds, but `unsubscribeFromAll` removes only the remote
subscriber entry and leaves A's `subscriptions.game` entry in place, so the
two sides fall out of sync in a reachable state; and `removeComponent` on a
world-scope subscription fetches `subscriptions.entity.get(id)!` — undefined —
and crashes instead of updating the two sides together. -/
theorem claim_c3 :
    catalogInvariant c3st1 ∧
    ¬ catalogInvariant c3st2 ∧
    (match mapGet c3st2 "A" with
      | some a => a.subsGame
      | none => []) = [("c1", ⟨"c1", "G", CompType.sensor, ScopeTag.game⟩)] ∧
    (match mapGet c3st2 "G" with
      | some g => g.subscribersSensor
      | none => [("c1", c3compSensorGame)]) = [] ∧
    (removeComponent (addComponent c3st0 "A" c3compModWorld) "A" c3compModWorld).isNone
      = true := by
  refine ⟨?_, ?_, ?_, ?_, ?_⟩ <;> decide

end ChaosCore
